import Mathlib

/-!
Verification of the date-mcp temporal computation core.

This file gives a shallow embedding of the temporal computation core of the
`date-mcp` repository and proves properties of it.  The repository contains two
parallel implementations of its MCP tools:

* a JavaScript-`Date`-based implementation (`src/mcp/server.ts` first revision,
  and the FastMCP single-file server): millisecond arithmetic with fixed
  divisors for months/years, `setMonth`/`setFullYear` field arithmetic, and a
  hand-rolled Japanese relative formatter;
* a Luxon-based implementation (`src/mcp/server.ts` later revision together
  with `src/mcp/utils.ts`): `parseDateWithTimezone`, `addDuration`,
  `calculateDifference`, `getDateComponents`, `getDateContext`,
  `formatDateInfo`, and Luxon's `toRelative`.

Both are embedded here.  Instants are integer counts of milliseconds since the
Unix epoch.  Zones are modelled as fixed UTC offsets in minutes (the Luxon
convention: positive east of UTC); DST-free fixed-offset zones are exactly the
cases exercised by the properties below.  The proleptic Gregorian mapping
between epoch days and calendar dates (which JavaScript `Date` and Luxon both
implement) is embedded by `daysFromCivil` / `civilFromDays` below and proved to
be a bijection between integers and valid calendar dates.
-/

/-! ## The proleptic Gregorian calendar: epoch days ↔ civil dates -/

/-- Leap year test, as in Luxon's `isLeapYear` and ECMAScript:
`y % 4 == 0 && (y % 100 != 0 || y % 400 == 0)`. -/
def isLeapYear (y : Int) : Bool := y % 4 == 0 && (y % 100 != 0 || y % 400 == 0)

/-- Days in a month, as in Luxon's `daysInMonth(year, month)`, which first
normalizes an out-of-range month modularly into `[1,12]` (shifting the year)
and then returns the usual month length. -/
def daysInMonth (y m : Int) : Int :=
  let modMonth := (m - 1) % 12 + 1
  let modYear := y + (m - modMonth) / 12
  if modMonth = 2 then (if isLeapYear modYear then 29 else 28)
  else if modMonth = 4 ∨ modMonth = 6 ∨ modMonth = 9 ∨ modMonth = 11 then 30 else 31

/-- A civil (proleptic Gregorian) calendar date. -/
structure Civil where
  year : Int
  month : Int
  day : Int
deriving DecidableEq, Repr

/-- Shifted month index: March = 0, …, January = 10, February = 11.
The shifted year starts on March 1 so the leap day comes last. -/
def mpOfMonth (m : Int) : Int := (m + 9) % 12

/-- Day-of-shifted-year at which shifted month `mp` starts. -/
def doyStart (mp : Int) : Int := (153 * mp + 2) / 5

/-- Year adjusted so that January and February belong to the previous
shifted year. -/
def yAdjOf (y m : Int) : Int := if m ≤ 2 then y - 1 else y

/-- Era (400-year Gregorian cycle) of a civil date. -/
def eraOfCivil (y m : Int) : Int := yAdjOf y m / 400

/-- Year of era, in `[0, 399]`. -/
def yoeOfCivil (y m : Int) : Int := yAdjOf y m - eraOfCivil y m * 400

/-- Day of shifted year of a civil date (0-based). -/
def doyOfCivil (m d : Int) : Int := doyStart (mpOfMonth m) + d - 1

/-- Day of era, in `[0, 146096]`. -/
def doeOfCivil (y m d : Int) : Int :=
  yoeOfCivil y m * 365 + yoeOfCivil y m / 4 - yoeOfCivil y m / 100 + doyOfCivil m d

/-- Count of days since 1970-01-01 of the civil date `(y, m, d)` (proleptic
Gregorian; the mapping implemented by ECMAScript `Date` / Luxon).  Linear in
`d`, so out-of-range days roll over exactly as `Date.UTC` does. -/
def daysFromCivil (y m d : Int) : Int :=
  eraOfCivil y m * 146097 + doeOfCivil y m d - 719468

/-- The map `daysFromCivil` after modular month normalization (as `Date.UTC` and
Luxon's `objToTS` accept any integer month, rolling the year). -/
def daysFromCivilN (y m d : Int) : Int :=
  daysFromCivil (y + (m - 1) / 12) ((m - 1) % 12 + 1) d

/- Inverse pipeline: epoch day → civil date.  The era is cut into 4 centuries
(long century last), each century into 25 quadrennia (long quadrennium last in
the long century only), each quadrennium into 4 shifted years (leap year
last). -/

/-- Day count shifted so that day 0 is 0000-03-01 of the proleptic calendar. -/
def zOfDay (k : Int) : Int := k + 719468

/-- Era of an epoch day. -/
def eraOfDay (k : Int) : Int := zOfDay k / 146097

/-- Day of era, in `[0, 146096]`. -/
def doeOfDay (k : Int) : Int := zOfDay k - eraOfDay k * 146097

/-- Century of era, in `[0, 3]`. -/
def centOfDay (k : Int) : Int := (4 * doeOfDay k + 3) / 146097

/-- Day of century. -/
def docOfDay (k : Int) : Int := doeOfDay k - 36524 * centOfDay k

/-- Quadrennium of century, in `[0, 24]`. -/
def quadOfDay (k : Int) : Int := docOfDay k / 1461

/-- Day of quadrennium, in `[0, 1460]`. -/
def doqOfDay (k : Int) : Int := docOfDay k - 1461 * quadOfDay k

/-- Year of quadrennium, in `[0, 3]`. -/
def yoqOfDay (k : Int) : Int := (doqOfDay k - doqOfDay k / 1460) / 365

/-- Day of shifted year. -/
def doyOfDay (k : Int) : Int := doqOfDay k - 365 * yoqOfDay k

/-- Year of era of an epoch day. -/
def yoeOfDay (k : Int) : Int := 100 * centOfDay k + 4 * quadOfDay k + yoqOfDay k

/-- Shifted month of an epoch day. -/
def mpOfDay (k : Int) : Int := (5 * doyOfDay k + 2) / 153

/-- Day-of-month of an epoch day. -/
def dayOfDay (k : Int) : Int := doyOfDay k - doyStart (mpOfDay k) + 1

/-- Month of an epoch day. -/
def monthOfDay (k : Int) : Int :=
  if mpOfDay k < 10 then mpOfDay k + 3 else mpOfDay k - 9

/-- Year of an epoch day. -/
def yearOfDay (k : Int) : Int :=
  yoeOfDay k + eraOfDay k * 400 + (if mpOfDay k < 10 then 0 else 1)

/-- Civil date of the day `k` days after 1970-01-01 (proleptic Gregorian). -/
def civilFromDays (k : Int) : Civil := ⟨yearOfDay k, monthOfDay k, dayOfDay k⟩

/-- A civil date is valid when the month is in range and the day fits the
month. -/
def ValidCivil (y m d : Int) : Prop :=
  1 ≤ m ∧ m ≤ 12 ∧ 1 ≤ d ∧ d ≤ daysInMonth y m

instance (y m d : Int) : Decidable (ValidCivil y m d) := by
  unfold ValidCivil; infer_instance

/-! ## Millisecond timestamps and wall-clock fields

A timestamp (`ts`) is a count of milliseconds since the Unix epoch — the
`Instant` of the data model, exactly Luxon's `dt.ts` / JavaScript's
`date.getTime()`.  A zone is a fixed UTC offset in minutes (Luxon convention:
positive east).  `tsToWall` is Luxon's `tsToObj` / the JS local-field getters;
`wallToTs` is Luxon's `objToTS` / `Date.UTC` (with full rollover semantics for
out-of-range fields, which both implement). -/

/-- Wall-clock calendar/clock fields of an instant in a zone. -/
structure DateFields where
  year : Int
  month : Int
  day : Int
  hour : Int
  minute : Int
  second : Int
  millisecond : Int
deriving DecidableEq, Repr

/-- Decompose a timestamp into wall-clock fields at fixed offset `off`
minutes. -/
def tsToWall (ts off : Int) : DateFields :=
  ⟨yearOfDay ((ts + off * 60000) / 86400000),
   monthOfDay ((ts + off * 60000) / 86400000),
   dayOfDay ((ts + off * 60000) / 86400000),
   (ts + off * 60000) % 86400000 / 3600000,
   (ts + off * 60000) % 86400000 / 60000 % 60,
   (ts + off * 60000) % 86400000 / 1000 % 60,
   (ts + off * 60000) % 86400000 % 1000⟩

/-- Recombine wall-clock fields at fixed offset `off` minutes into a
timestamp.  Linear in every field, so out-of-range fields roll over exactly as
in `Date.UTC` / Luxon's `objToTS`. -/
def wallToTs (c : DateFields) (off : Int) : Int :=
  daysFromCivilN c.year c.month c.day * 86400000
    + c.hour * 3600000 + c.minute * 60000 + c.second * 1000 + c.millisecond
    - off * 60000

/-- Valid wall-clock fields: a valid civil date and in-range time fields. -/
def ValidFields (c : DateFields) : Prop :=
  ValidCivil c.year c.month c.day ∧
  0 ≤ c.hour ∧ c.hour ≤ 23 ∧ 0 ≤ c.minute ∧ c.minute ≤ 59 ∧
  0 ≤ c.second ∧ c.second ≤ 59 ∧ 0 ≤ c.millisecond ∧ c.millisecond ≤ 999

instance (c : DateFields) : Decidable (ValidFields c) := by
  unfold ValidFields; infer_instance

/-! ## Time units and the Luxon `DateTime` model -/

/-- The seven duration units accepted by `calculate_date` (`timeUnits` in
`utils.ts`). -/
inductive TimeUnit
  | seconds
  | minutes
  | hours
  | days
  | weeks
  | months
  | years
deriving DecidableEq, Repr

/-- A Luxon `DateTime`: an instant (`ts`, epoch milliseconds) paired with its
zone, modelled as a fixed UTC offset in minutes. -/
structure LuxonDateTime where
  ts : Int
  offset : Int
deriving DecidableEq, Repr

/-- Luxon's `adjustTime` for an integer-valued duration: calendar parts are
applied to the wall-clock fields (with the day clamped to the length of the
target month before day/week offsets are added), then the fixed millisecond
part is added to the resulting instant. -/
def adjustTime (dt : LuxonDateTime) (yrs mths wks dys ms : Int) : LuxonDateTime :=
  let c := tsToWall dt.ts dt.offset
  ⟨wallToTs ⟨c.year + yrs, c.month + mths,
      min c.day (daysInMonth (c.year + yrs) (c.month + mths)) + dys + 7 * wks,
      c.hour, c.minute, c.second, c.millisecond⟩ dt.offset + ms,
   dt.offset⟩

/-- Function `addDuration` from `utils.ts`: `dt.plus(Duration.fromObject({[unit]: amount}))`,
for an integer `amount`. -/
def addDuration (dt : LuxonDateTime) (amount : Int) : TimeUnit → LuxonDateTime
  | .seconds => adjustTime dt 0 0 0 0 (amount * 1000)
  | .minutes => adjustTime dt 0 0 0 0 (amount * 60000)
  | .hours => adjustTime dt 0 0 0 0 (amount * 3600000)
  | .days => adjustTime dt 0 0 0 amount 0
  | .weeks => adjustTime dt 0 0 amount 0 0
  | .months => adjustTime dt 0 amount 0 0 0
  | .years => adjustTime dt amount 0 0 0 0

/-! ## The JavaScript-`Date`-based `calculate_date` arithmetic

The first-revision `calculate_date` mutates a `Date` with
`setSeconds`/`setMinutes`/`setHours`/`setDate`/`setMonth`/`setFullYear`, each
of which recombines the local-time fields with full rollover (ECMAScript
`MakeDay`/`MakeTime`).  `sysOff` is the process zone's fixed offset in
minutes (Luxon sign convention). -/

/-- The `switch (unit)` of the Date-based `calculate_date`. -/
def jsDateAdd (sysOff ts amount : Int) : TimeUnit → Int
  | .seconds =>
      wallToTs ⟨(tsToWall ts sysOff).year, (tsToWall ts sysOff).month,
        (tsToWall ts sysOff).day, (tsToWall ts sysOff).hour,
        (tsToWall ts sysOff).minute, (tsToWall ts sysOff).second + amount,
        (tsToWall ts sysOff).millisecond⟩ sysOff
  | .minutes =>
      wallToTs ⟨(tsToWall ts sysOff).year, (tsToWall ts sysOff).month,
        (tsToWall ts sysOff).day, (tsToWall ts sysOff).hour,
        (tsToWall ts sysOff).minute + amount, (tsToWall ts sysOff).second,
        (tsToWall ts sysOff).millisecond⟩ sysOff
  | .hours =>
      wallToTs ⟨(tsToWall ts sysOff).year, (tsToWall ts sysOff).month,
        (tsToWall ts sysOff).day, (tsToWall ts sysOff).hour + amount,
        (tsToWall ts sysOff).minute, (tsToWall ts sysOff).second,
        (tsToWall ts sysOff).millisecond⟩ sysOff
  | .days =>
      wallToTs ⟨(tsToWall ts sysOff).year, (tsToWall ts sysOff).month,
        (tsToWall ts sysOff).day + amount, (tsToWall ts sysOff).hour,
        (tsToWall ts sysOff).minute, (tsToWall ts sysOff).second,
        (tsToWall ts sysOff).millisecond⟩ sysOff
  | .weeks =>
      wallToTs ⟨(tsToWall ts sysOff).year, (tsToWall ts sysOff).month,
        (tsToWall ts sysOff).day + amount * 7, (tsToWall ts sysOff).hour,
        (tsToWall ts sysOff).minute, (tsToWall ts sysOff).second,
        (tsToWall ts sysOff).millisecond⟩ sysOff
  | .months =>
      wallToTs ⟨(tsToWall ts sysOff).year, (tsToWall ts sysOff).month + amount,
        (tsToWall ts sysOff).day, (tsToWall ts sysOff).hour,
        (tsToWall ts sysOff).minute, (tsToWall ts sysOff).second,
        (tsToWall ts sysOff).millisecond⟩ sysOff
  | .years =>
      wallToTs ⟨(tsToWall ts sysOff).year + amount, (tsToWall ts sysOff).month,
        (tsToWall ts sysOff).day, (tsToWall ts sysOff).hour,
        (tsToWall ts sysOff).minute, (tsToWall ts sysOff).second,
        (tsToWall ts sysOff).millisecond⟩ sysOff

/-- The fixed millisecond length of the five fixed-length units. -/
def unitMs : TimeUnit → Int
  | .seconds => 1000
  | .minutes => 60000
  | .hours => 3600000
  | .days => 86400000
  | .weeks => 604800000
  | .months => 0
  | .years => 0

/-- A unit is fixed-length when it is not months or years. -/
def TimeUnit.isFixed : TimeUnit → Prop
  | .months => False
  | .years => False
  | _ => True

/-! ## Timestamp parsing (`parseDateWithTimezone`) and serialization -/

/-- The zone-suffix forms an ISO-8601 date-time literal can carry.  Luxon's
`fromISO` accepts all of them: no suffix, `Z`, an extended-format offset
`±HH:MM`, and a basic-format offset `±HHMM` or `±HH` (its offset pattern is
`([+-]\d\d)(?::?(\d\d))?`). -/
inductive OffsetSpec
  | missing
  | utcZ
  | extended (o : Int)
  | basic (o : Int)
deriving DecidableEq, Repr

/-- The UTC offset (in minutes) a literal explicitly carries, if any — the
offset `fromISO` uses to fix the instant. -/
def OffsetSpec.explicit : OffsetSpec → Option Int
  | .missing => none
  | .utcZ => some 0
  | .extended o => some o
  | .basic o => some o

/-- A structured ISO-8601 date-time literal: the clock reading plus the form
of its zone suffix. -/
structure ISOLiteral where
  year : Int
  month : Int
  day : Int
  hour : Int
  minute : Int
  second : Int
  millisecond : Int
  offset : OffsetSpec
deriving DecidableEq, Repr

/-- The clock-reading fields of a literal. -/
def ISOLiteral.fields (lit : ISOLiteral) : DateFields :=
  ⟨lit.year, lit.month, lit.day, lit.hour, lit.minute, lit.second, lit.millisecond⟩

/-- The absolute instant denoted by a literal carrying an explicit offset. -/
def ISOLiteral.denoted (lit : ISOLiteral) (o : Int) : Int := wallToTs lit.fields o

/-- The `hasTimezone` test of `parseDateWithTimezone`: the regex
`[+-]\d{2}:\d{2}|Z$` on a well-formed date-time literal.  It matches a `Z`
suffix and an extended-format offset `±HH:MM`; it misses a basic-format
offset (no colon), and nothing else in such a literal can match
(`YYYY-MM-DDTHH:MM:SS(.mmm)` contains no `+`, and every `-` is followed by
two digits and then another `-` or a `T`, never a `:`). -/
def hasTimezone (lit : ISOLiteral) : Bool :=
  match lit.offset with
  | .utcZ => true
  | .extended _ => true
  | _ => false

/-- Luxon's `setZone(zone, { keepLocalTime: true })`: reinterpret the current
wall-clock reading in the new zone. -/
def setZoneKeepLocal (dt : LuxonDateTime) (newOff : Int) : LuxonDateTime :=
  ⟨wallToTs (tsToWall dt.ts dt.offset) newOff, newOff⟩

/-- Luxon's `DateTime.fromISO(dateStr, { zone })` with the default
`setZone: false`: the instant comes from the literal's own offset when it
carries one (in either format), otherwise from reading the clock fields as
wall time in `zone`; the result is then viewed in `zone`. -/
def fromISOInZone (lit : ISOLiteral) (z : Int) : LuxonDateTime :=
  match OffsetSpec.explicit lit.offset with
  | some o => ⟨wallToTs lit.fields o, z⟩
  | none => ⟨wallToTs lit.fields z, z⟩

/-- Function `parseDateWithTimezone(dateStr, fallbackTimezone)` from `utils.ts`, over
structured literals and resolved zone offsets:

* `hasTimezone` regex matches: `DateTime.fromISO(dateStr)` in the process
  default zone (`sysOff`);
* no match, fallback given: `DateTime.fromISO(dateStr, { zone: 'UTC' })
  .setZone(fallback, { keepLocalTime: true })` — note that a basic-format
  offset literal lands here although `fromISO` still honours its offset;
* no match, no fallback: `DateTime.fromISO(dateStr)` in the default zone. -/
def parseDateWithTimezone (lit : ISOLiteral) (sysOff : Int)
    (fallback : Option Int) : LuxonDateTime :=
  if hasTimezone lit then
    fromISOInZone lit sysOff
  else
    match fallback with
    | some fz => setZoneKeepLocal (fromISOInZone lit 0) fz
    | none => fromISOInZone lit sysOff

/-- A literal is valid when its clock-reading fields are (Luxon's `fromISO`
yields an invalid `DateTime` otherwise). -/
def ValidLiteral (lit : ISOLiteral) : Prop := ValidFields lit.fields

instance (lit : ISOLiteral) : Decidable (ValidLiteral lit) := by
  unfold ValidLiteral; infer_instance

/-- Function `formatDateInfo` from `utils.ts`: the ISO rendering (wall-clock fields in
the `DateTime`'s own zone plus that zone's offset suffix), the Unix seconds
(`Math.floor(dt.toSeconds())`), and epoch milliseconds (`dt.toMillis()`). -/
structure DateInfoOut where
  isoFields : DateFields
  isoOffset : Int
  unix : Int
  milliseconds : Int
deriving DecidableEq, Repr

def formatDateInfo (dt : LuxonDateTime) : DateInfoOut :=
  ⟨tsToWall dt.ts dt.offset, dt.offset, dt.ts / 1000, dt.ts⟩

/-! ## The difference calculators -/

/-- A `DifferenceResult`: one nonnegative magnitude per unit. -/
structure DiffResult where
  milliseconds : Int
  seconds : Int
  minutes : Int
  hours : Int
  days : Int
  weeks : Int
  months : Int
  years : Int
deriving DecidableEq, Repr

/-- The Date-based `get_time_difference` magnitudes: an independent floor
division of `|now - target|` milliseconds for every unit, with fixed divisors
of 30 days per month and 365 days per year. -/
def jsDiff (nowTs targetTs : Int) : DiffResult :=
  { milliseconds := |nowTs - targetTs|
    seconds := |nowTs - targetTs| / 1000
    minutes := |nowTs - targetTs| / 60000
    hours := |nowTs - targetTs| / 3600000
    days := |nowTs - targetTs| / 86400000
    weeks := |nowTs - targetTs| / 604800000
    months := |nowTs - targetTs| / 2592000000
    years := |nowTs - targetTs| / 31536000000 }

/-- The Date-based `getHumanReadableDiff(diffMs, isPast)` from `utils.ts`:
walk the unit ladder year > month > week > day > hour > minute > second and
render the first unit with a positive floor quotient, in Japanese. -/
def jsGetHumanReadableDiff (diffMs : Int) (past : Bool) : String :=
  let suf := if past then "前" else "後"
  if diffMs / 31536000000 > 0 then toString (diffMs / 31536000000) ++ "年" ++ suf
  else if diffMs / 2592000000 > 0 then toString (diffMs / 2592000000) ++ "ヶ月" ++ suf
  else if diffMs / 604800000 > 0 then toString (diffMs / 604800000) ++ "週間" ++ suf
  else if diffMs / 86400000 > 0 then toString (diffMs / 86400000) ++ "日" ++ suf
  else if diffMs / 3600000 > 0 then toString (diffMs / 3600000) ++ "時間" ++ suf
  else if diffMs / 60000 > 0 then toString (diffMs / 60000) ++ "分" ++ suf
  else if diffMs / 1000 > 0 then toString (diffMs / 1000) ++ "秒" ++ suf
  else "今"

/-- Output of the Date-based `get_time_difference` (the fields the claims are
about). -/
structure TimeDiffOut where
  is_past : Bool
  relative : String
  difference : DiffResult
  human_readable : String
deriving DecidableEq, Repr

/-- The Date-based `get_time_difference` tool body, at a fixed `now`. -/
def jsGetTimeDifference (nowTs targetTs : Int) : TimeDiffOut :=
  let diffMs := nowTs - targetTs
  let isPast := diffMs > 0
  { is_past := isPast
    relative := if isPast then "過去" else "未来"
    difference := jsDiff nowTs targetTs
    human_readable := jsGetHumanReadableDiff |diffMs| isPast }

/-! ### The Luxon difference calculator -/

/-- Difference in calendar days between two wall-clock dates (Luxon's
`dayDiff`, which compares the UTC midnights of the two calendar dates). -/
def dayDiffFields (a b : DateFields) : Int :=
  daysFromCivilN b.year b.month b.day - daysFromCivilN a.year a.month a.day

/-- Luxon's `earlier.plus({ years, months, days })` on wall-clock fields `c` in a
fixed-offset zone: Luxon's `adjustTime` with those three calendar entries. -/
def plusYMD (c : DateFields) (off Y M D : Int) : Int :=
  wallToTs ⟨c.year + Y, c.month + M,
    min c.day (daysInMonth (c.year + Y) (c.month + M)) + D,
    c.hour, c.minute, c.second, c.millisecond⟩ off

/-- Luxon's `highOrderDiffs` loop for the unit list
`['years', 'months', 'days']`, on an ordered pair `a.ts ≤ b.ts`: each
candidate count is the field difference, decremented once when
`earlier.plus(results)` overshoots `later`.  Returns the three counts and the
remaining milliseconds `later - cursor`. -/
def luxonYMD (a b : LuxonDateTime) : Int × Int × Int × Int :=
  let ca := tsToWall a.ts a.offset
  let cb := tsToWall b.ts b.offset
  let y0 := cb.year - ca.year
  let y1 := if plusYMD ca a.offset y0 0 0 > b.ts then y0 - 1 else y0
  let c1 := tsToWall (plusYMD ca a.offset y1 0 0) a.offset
  let m0 := cb.month - c1.month + (cb.year - c1.year) * 12
  let m1 := if plusYMD ca a.offset y1 m0 0 > b.ts then m0 - 1 else m0
  let c2 := tsToWall (plusYMD ca a.offset y1 m1 0) a.offset
  let d0 := dayDiffFields c2 cb
  let d1 := if plusYMD ca a.offset y1 m1 d0 > b.ts then d0 - 1 else d0
  (y1, m1, d1, b.ts - plusYMD ca a.offset y1 m1 d1)

/-- Function `calculateDifference(dt1, dt2)` from `utils.ts`:
`dt1.diff(dt2, ['years','months','days','hours','minutes','seconds','milliseconds'])`
followed by `Math.abs` of the millisecond component and
`Math.floor(Math.abs(diff.as(unit)))` for the other units.  Luxon orders the
pair, extracts calendar years/months/days with `highOrderDiffs`, shifts the
remainder into hours…milliseconds, and negates the duration when
`dt1 < dt2` (the negation is cancelled by `Math.abs`).  `as(unit)` converts
the mixed duration with the casual matrix (1 year = 12 months = 52 weeks =
365 days, 1 month = 4 weeks = 30 days); each magnitude below is the exact
integer floor of that conversion for same-zone pairs. -/
def calculateDifference (dt1 dt2 : LuxonDateTime) : DiffResult :=
  let p := if dt2.ts > dt1.ts then (dt1, dt2) else (dt2, dt1)
  let q := luxonYMD p.1 p.2
  let y := q.1
  let m := q.2.1
  let d := q.2.2.1
  let rem := q.2.2.2
  { milliseconds := rem % 1000
    seconds := y * 31536000 + m * 2592000 + d * 86400 + rem / 1000
    minutes := y * 525600 + m * 43200 + d * 1440 + rem / 60000
    hours := y * 8760 + m * 720 + d * 24 + rem / 3600000
    days := y * 365 + m * 30 + d + rem / 86400000
    weeks := y * 52 + m * 4 + (d * 86400000 + rem) / 604800000
    months := y * 12 + m + (d * 86400000 + rem) / 2592000000
    years := y + (m * 2628000000 + d * 86400000 + rem) / 31536000000 }

/-! ### Luxon's `toRelative` (the Luxon implementation's `getHumanReadableDiff`) -/

/-- The units `toRelative` tries, in order (weeks are not among them). -/
inductive RelUnit
  | years
  | months
  | days
  | hours
  | minutes
  | seconds
deriving DecidableEq, Repr

/-- Luxon's `earlier.plus({ [unit]: n })` for the calendar units used by single-unit
diffs. -/
def plusCalUnit (c : DateFields) (off : Int) : RelUnit → Int → Int
  | .years, n => plusYMD c off n 0 0
  | .months, n => plusYMD c off 0 n 0
  | _, n => plusYMD c off 0 0 n

/-- Truncation toward zero (JavaScript `Math.trunc`, Luxon's `roundTo` with
zero digits). -/
def ratTrunc (q : ℚ) : Int := if 0 ≤ q then ⌊q⌋ else ⌈q⌉

/-- Single-calendar-unit diff value for an ordered pair `a.ts ≤ b.ts`
(Luxon's `diff` with one high-order unit): the whole count from
`highOrderDiffs` plus the remainder as a fraction of the following
unit-interval. -/
def calDiffSingle (u : RelUnit) (a b : LuxonDateTime) : ℚ :=
  let ca := tsToWall a.ts a.offset
  let cb := tsToWall b.ts b.offset
  let n0 : Int :=
    match u with
    | .years => cb.year - ca.year
    | .months => cb.month - ca.month + (cb.year - ca.year) * 12
    | _ => dayDiffFields ca cb
  if plusCalUnit ca a.offset u n0 > b.ts then
    ((n0 - 1 : Int) : ℚ) +
      ((b.ts - plusCalUnit ca a.offset u (n0 - 1) : Int) : ℚ) /
        ((plusCalUnit ca a.offset u n0 - plusCalUnit ca a.offset u (n0 - 1) : Int) : ℚ)
  else
    if plusCalUnit ca a.offset u n0 < b.ts then
      (n0 : ℚ) +
        ((b.ts - plusCalUnit ca a.offset u n0 : Int) : ℚ) /
          ((plusCalUnit (tsToWall (plusCalUnit ca a.offset u n0) a.offset) a.offset u 1
              - plusCalUnit ca a.offset u n0 : Int) : ℚ)
    else (n0 : ℚ)

/-- Luxon's `e.diff(s, unit).get(unit)`: signed single-unit difference. -/
def relCount (u : RelUnit) (e s : LuxonDateTime) : ℚ :=
  match u with
  | .hours => ((e.ts - s.ts : Int) : ℚ) / 3600000
  | .minutes => ((e.ts - s.ts : Int) : ℚ) / 60000
  | .seconds => ((e.ts - s.ts : Int) : ℚ) / 1000
  | _ => if s.ts > e.ts then -(calDiffSingle u e s) else calDiffSingle u s e

/-- Rendering of `Intl.RelativeTimeFormat('en', { numeric: 'always' })`. -/
def relFormatEn (n : Int) (uname : String) : String :=
  if n < 0 then
    toString (-n) ++ " " ++ uname ++ (if n = -1 then "" else "s") ++ " ago"
  else "in " ++ toString n ++ " " ++ uname ++ (if n = 1 then "" else "s")

/-- Luxon's `dt.toRelative({ base })` under an English locale: the first unit of
years > months > days > hours > minutes > seconds whose count reaches
magnitude 1 is rendered (count truncated toward zero); if none does, a
zero-seconds phrase in the direction of the difference. -/
def toRelativeEn (dt base : LuxonDateTime) : String :=
  if 1 ≤ |relCount .years dt base| then relFormatEn (ratTrunc (relCount .years dt base)) "year"
  else if 1 ≤ |relCount .months dt base| then
    relFormatEn (ratTrunc (relCount .months dt base)) "month"
  else if 1 ≤ |relCount .days dt base| then
    relFormatEn (ratTrunc (relCount .days dt base)) "day"
  else if 1 ≤ |relCount .hours dt base| then
    relFormatEn (ratTrunc (relCount .hours dt base)) "hour"
  else if 1 ≤ |relCount .minutes dt base| then
    relFormatEn (ratTrunc (relCount .minutes dt base)) "minute"
  else if 1 ≤ |relCount .seconds dt base| then
    relFormatEn (ratTrunc (relCount .seconds dt base)) "second"
  else if base.ts > dt.ts then "0 seconds ago" else "in 0 seconds"

/-- Output fields of the Luxon `get_time_difference` the claims are about. -/
def luxonGetTimeDifference (now target : LuxonDateTime) : TimeDiffOut :=
  { is_past := now.ts > target.ts
    relative := if now.ts > target.ts then "past" else "future"
    difference := calculateDifference now target
    human_readable := toRelativeEn target now }

/-! ## Calendar components (`getDateComponents` / `getDateContext`) -/

/-- Luxon's `dt.weekday`: 1 = Monday .. 7 = Sunday (computed from the
JavaScript `getUTCDay` convention 0 = Sunday by mapping 0 to 7). -/
def luxonWeekday (c : DateFields) : Int :=
  let js := (daysFromCivilN c.year c.month c.day + 4) % 7
  if js = 0 then 7 else js

/-- Luxon's `weeksInWeekYear`. -/
def weeksInWeekYear (y : Int) : Int :=
  let p1 := (y + y / 4 - y / 100 + y / 400) % 7
  let p2 := (y - 1 + (y - 1) / 4 - (y - 1) / 100 + (y - 1) / 400) % 7
  if p1 = 4 ∨ p2 = 3 then 53 else 52

/-- Ordinal (day of year), Luxon's `computeOrdinal`. -/
def computeOrdinal (c : DateFields) : Int :=
  daysFromCivilN c.year c.month c.day - daysFromCivilN c.year 1 1 + 1

/-- Luxon's ISO `weekNumber` (`gregorianToWeek`). -/
def luxonWeekNumber (c : DateFields) : Int :=
  let wn := (computeOrdinal c - luxonWeekday c + 10) / 7
  if wn < 1 then weeksInWeekYear (c.year - 1)
  else if wn > weeksInWeekYear c.year then 1
  else wn

/-- The record built by `getDateComponents` in `utils.ts`. -/
structure ComponentsOut where
  year : Int
  month : Int
  day : Int
  hour : Int
  minute : Int
  second : Int
  dayOfWeek : Int
  weekOfYear : Int
  offset : Int
deriving DecidableEq, Repr

/-- Function `getDateComponents(dt)`: calendar fields plus
`dayOfWeek: dt.weekday === 7 ? 0 : dt.weekday` (Sunday converted from 7 to 0)
and `offset: -dt.offset` (negated to the `getTimezoneOffset` convention). -/
def getDateComponents (dt : LuxonDateTime) : ComponentsOut :=
  let c := tsToWall dt.ts dt.offset
  ⟨c.year, c.month, c.day, c.hour, c.minute, c.second,
   if luxonWeekday c = 7 then 0 else luxonWeekday c,
   luxonWeekNumber c,
   -dt.offset⟩

/-- The record built by `getDateContext` in `utils.ts`. -/
structure ContextOut where
  isWeekend : Bool
  quarter : Int
  dayOfYear : Int
  daysInMonth : Int
deriving DecidableEq, Repr

/-- Function `getDateContext(dt)`: `isWeekend: dt.weekday >= 6` (Saturday = 6,
Sunday = 7 in Luxon), quarter, ordinal, days in month. -/
def getDateContext (dt : LuxonDateTime) : ContextOut :=
  let c := tsToWall dt.ts dt.offset
  ⟨decide (6 ≤ luxonWeekday c), (c.month + 2) / 3, computeOrdinal c,
   daysInMonth c.year c.month⟩

/-! ## The Date-based `get_current_time` -/

/-- Components block of the Date-based `get_current_time`: always the local
(`sysOff`) getters of `now`. -/
structure JsComponents where
  year : Int
  month : Int
  day : Int
  hour : Int
  minute : Int
  second : Int
  dayOfWeek : Int
  weekOfYear : Int
deriving DecidableEq, Repr

/-- Context block of the Date-based `get_current_time`. -/
structure JsContext where
  isWeekend : Bool
  quarter : Int
  dayOfYear : Int
  daysInMonth : Int
deriving DecidableEq, Repr

/-- Function `getWeekNumber(date)` from the Date-based `utils.ts`: day count from the
local January 1 (as an unfloored millisecond ratio), offset by January 1's
weekday, divided by 7 and ceiled. -/
def jsGetWeekNumber (sysOff ts : Int) : Int :=
  let c := tsToWall ts sysOff
  let firstTs := wallToTs ⟨c.year, 1, 1, 0, 0, 0, 0⟩ sysOff
  let firstDay := (daysFromCivilN c.year 1 1 + 4) % 7
  ⌈((((ts - firstTs : Int) : ℚ) / 86400000 + firstDay + 1) / 7 : ℚ)⌉

/-- Function `getDayOfYear(date)` from the Date-based `utils.ts`: floored day count
from the local `new Date(year, 0, 0)` (December 31 of the previous year). -/
def jsGetDayOfYear (sysOff ts : Int) : Int :=
  let c := tsToWall ts sysOff
  (ts - wallToTs ⟨c.year, 1, 0, 0, 0, 0, 0⟩ sysOff) / 86400000

/-- The `components` object of the Date-based `get_current_time`: the
process-local getters `getFullYear() .. getSeconds()`, `getDay()` (0 =
Sunday), and `getWeekNumber`. -/
def jsComponents (sysOff ts : Int) : JsComponents :=
  let c := tsToWall ts sysOff
  ⟨c.year, c.month, c.day, c.hour, c.minute, c.second,
   (daysFromCivilN c.year c.month c.day + 4) % 7, jsGetWeekNumber sysOff ts⟩

/-- The `context` object of the Date-based `get_current_time`:
`isWeekend: getDay() === 0 || getDay() === 6`, quarter from `getMonth()`,
`getDayOfYear`, and `new Date(year, month + 1, 0).getDate()`. -/
def jsContext (sysOff ts : Int) : JsContext :=
  let c := tsToWall ts sysOff
  let dow := (daysFromCivilN c.year c.month c.day + 4) % 7
  ⟨decide (dow = 0 ∨ dow = 6), (c.month + 2) / 3, jsGetDayOfYear sysOff ts,
   dayOfDay (daysFromCivilN c.year (c.month + 1) 0)⟩

/-- Full output of the Date-based `get_current_time` (the parts the claims
are about). -/
structure JsCurrentTimeOut where
  components : JsComponents
  context : JsContext
  tzSystem : String
  tzRequested : String
  tzConverted : Option Int
  tzError : Option String
deriving DecidableEq, Repr

/-- Model of `new Date(now.toLocaleString('en-US', { timeZone }))`: the wall clock of
the instant in the requested zone, at second precision, reread as a local
time. -/
def jsToLocaleReparse (sysOff reqOff ts : Int) : Int :=
  let c := tsToWall ts reqOff
  wallToTs ⟨c.year, c.month, c.day, c.hour, c.minute, c.second, 0⟩ sysOff

/-- The Date-based `get_current_time` tool body at a fixed `now`.  `resolve`
is the ambient IANA zone table (which zone names `toLocaleString` accepts, and
their offsets); an unrecognized effective zone throws inside the inner `try`
and only sets `timezone.error`. -/
def js_get_current_time (nowTs sysOff : Int) (sysName : String)
    (resolve : String → Option Int) (reqTz : Option String) : JsCurrentTimeOut :=
  let effective := reqTz.getD sysName
  let base : JsCurrentTimeOut :=
    ⟨jsComponents sysOff nowTs, jsContext sysOff nowTs, sysName, effective,
      none, none⟩
  if effective ≠ sysName then
    match resolve effective with
    | some reqOff => { base with tzConverted := some (jsToLocaleReparse sysOff reqOff nowTs) }
    | none => { base with tzError := some ("無効なタイムゾーン: " ++ effective) }
  else base

/-! ## `calculate_date` with arbitrary (possibly fractional) amounts -/

/-- Luxon `dt.plus({[unit]: q})` for an arbitrary rational amount, returning
the resulting instant in (possibly fractional) epoch milliseconds: calendar
units contribute their `Math.trunc` part as field arithmetic and the
fractional remainder converted with the casual matrix; fixed time units are
pure millisecond arithmetic. -/
def addDurationRat (dt : LuxonDateTime) (q : ℚ) : TimeUnit → ℚ
  | .seconds => dt.ts + q * 1000
  | .minutes => dt.ts + q * 60000
  | .hours => dt.ts + q * 3600000
  | .days => ((adjustTime dt 0 0 0 (ratTrunc q) 0).ts : ℚ) + (q - ratTrunc q) * 86400000
  | .weeks => ((adjustTime dt 0 0 (ratTrunc q) 0 0).ts : ℚ) + (q - ratTrunc q) * 604800000
  | .months => ((adjustTime dt 0 (ratTrunc q) 0 0 0).ts : ℚ) + (q - ratTrunc q) * 2592000000
  | .years => ((adjustTime dt (ratTrunc q) 0 0 0 0).ts : ℚ) + (q - ratTrunc q) * 31536000000

/-- The Luxon `calculate_date` body for an explicit `base_date` literal: the
only failure path is an invalid date literal; the amount is never checked. -/
def calculate_date_luxon (lit : ISOLiteral) (sysOff fallbackOff : Int)
    (q : ℚ) (u : TimeUnit) : Except String ℚ :=
  if ValidLiteral lit then
    Except.ok (addDurationRat (parseDateWithTimezone lit sysOff (some fallbackOff)) q u)
  else Except.error "Invalid date format"

/-- The JavaScript `getDay()`-style weekday of an instant in its zone:
0 = Sunday .. 6 = Saturday. -/
def sundayIndexOf (dt : LuxonDateTime) : Int :=
  (daysFromCivilN (tsToWall dt.ts dt.offset).year (tsToWall dt.ts dt.offset).month
      (tsToWall dt.ts dt.offset).day + 4) % 7

/-! ## Properties -/

theorem isLeapYear_iff (y : Int) :
    isLeapYear y = true ↔ (y % 4 = 0 ∧ (y % 100 ≠ 0 ∨ y % 400 = 0)) := by
  simp [isLeapYear, Bool.and_eq_true, Bool.or_eq_true, beq_iff_eq, bne_iff_ne]

theorem daysInMonth_eq (y m : Int) (h1 : 1 ≤ m) (h2 : m ≤ 12) :
    daysInMonth y m =
      if m = 2 then (if isLeapYear y then 29 else 28)
      else if m = 4 ∨ m = 6 ∨ m = 9 ∨ m = 11 then 30 else 31 := by
  have hmod : (m - 1) % 12 + 1 = m := by omega
  unfold daysInMonth
  simp only [hmod, sub_self, Int.zero_ediv, add_zero]

theorem doe_bounds (k : Int) : 0 ≤ doeOfDay k ∧ doeOfDay k ≤ 146096 := by
  unfold doeOfDay eraOfDay zOfDay; omega

theorem cent_facts (k : Int) :
    0 ≤ centOfDay k ∧ centOfDay k ≤ 3 ∧
    0 ≤ docOfDay k ∧ docOfDay k ≤ 36524 ∧
    (centOfDay k ≤ 2 → docOfDay k ≤ 36523) := by
  have h := doe_bounds k
  unfold docOfDay centOfDay; omega

theorem quad_facts (k : Int) :
    0 ≤ quadOfDay k ∧ quadOfDay k ≤ 24 ∧
    0 ≤ doqOfDay k ∧ doqOfDay k ≤ 1460 ∧
    (quadOfDay k ≤ 23 → doqOfDay k ≤ 1460) ∧
    (centOfDay k ≤ 2 ∧ quadOfDay k = 24 → doqOfDay k ≤ 1459) := by
  have h := cent_facts k
  unfold doqOfDay quadOfDay; omega

theorem yoq_facts (k : Int) :
    0 ≤ yoqOfDay k ∧ yoqOfDay k ≤ 3 ∧
    0 ≤ doyOfDay k ∧ doyOfDay k ≤ 365 ∧
    (doyOfDay k = 365 → yoqOfDay k = 3 ∧ doqOfDay k = 1460) := by
  have h := quad_facts k
  unfold doyOfDay yoqOfDay; omega

theorem yoe_facts (k : Int) :
    0 ≤ yoeOfDay k ∧ yoeOfDay k ≤ 399 ∧
    yoeOfDay k * 365 + yoeOfDay k / 4 - yoeOfDay k / 100 =
      36524 * centOfDay k + 1461 * quadOfDay k + 365 * yoqOfDay k := by
  have hc := cent_facts k
  have hq := quad_facts k
  have hy := yoq_facts k
  unfold yoeOfDay; omega

theorem mp_facts (k : Int) :
    0 ≤ mpOfDay k ∧ mpOfDay k ≤ 11 ∧
    doyStart (mpOfDay k) ≤ doyOfDay k ∧
    (mpOfDay k ≤ 10 → doyOfDay k < doyStart (mpOfDay k + 1)) ∧
    (mpOfDay k = 11 → dayOfDay k ≤ 29) ∧
    (mpOfDay k = 11 ∧ dayOfDay k = 29 → doyOfDay k = 365) := by
  have h := yoq_facts k
  unfold dayOfDay mpOfDay doyStart; omega

theorem doe_recompose (k : Int) :
    doeOfDay k = 36524 * centOfDay k + 1461 * quadOfDay k + 365 * yoqOfDay k
      + doyOfDay k := by
  have h1 := cent_facts k
  have h2 := quad_facts k
  have h3 := yoq_facts k
  unfold doyOfDay doqOfDay docOfDay at *
  omega

/-- The inverse conversion really inverts `daysFromCivil`. -/
theorem daysFromCivil_civilFromDays (k : Int) :
    daysFromCivil (yearOfDay k) (monthOfDay k) (dayOfDay k) = k := by
  have hdoe := doe_bounds k
  have hc := cent_facts k
  have hq := quad_facts k
  have hyq := yoq_facts k
  have hyoe := yoe_facts k
  have hmp := mp_facts k
  have hrec := doe_recompose k
  have hera : k + 719468 = eraOfDay k * 146097 + doeOfDay k := by
    unfold doeOfDay zOfDay; omega
  unfold doyStart at hmp
  unfold daysFromCivil doeOfCivil doyOfCivil yoeOfCivil eraOfCivil yAdjOf
    mpOfMonth yearOfDay monthOfDay dayOfDay doyStart
  by_cases hb : mpOfDay k < 10
  · -- months March..December: same calendar year as shifted year
    simp only [if_pos hb, add_zero]
    rw [if_neg (show ¬ (mpOfDay k + 3 ≤ 2) by omega)]
    rw [show (mpOfDay k + 3 + 9) % 12 = mpOfDay k by omega]
    rw [show (yoeOfDay k + eraOfDay k * 400) / 400 = eraOfDay k by omega]
    rw [show yoeOfDay k + eraOfDay k * 400 - eraOfDay k * 400 = yoeOfDay k by ring]
    omega
  · -- months January..February: calendar year is shifted year + 1
    simp only [if_neg hb]
    rw [if_pos (show mpOfDay k - 9 ≤ 2 by omega)]
    rw [show (mpOfDay k - 9 + 9) % 12 = mpOfDay k by omega]
    rw [show yoeOfDay k + eraOfDay k * 400 + 1 - 1 = yoeOfDay k + eraOfDay k * 400 by ring]
    rw [show (yoeOfDay k + eraOfDay k * 400) / 400 = eraOfDay k by omega]
    rw [show yoeOfDay k + eraOfDay k * 400 - eraOfDay k * 400 = yoeOfDay k by ring]
    omega

/-- Case analysis for the month mapping of `civilFromDays`. -/
theorem monthOfDay_cases (k : Int) :
    (mpOfDay k < 10 ∧ monthOfDay k = mpOfDay k + 3 ∧
      yearOfDay k = yoeOfDay k + eraOfDay k * 400) ∨
    (10 ≤ mpOfDay k ∧ monthOfDay k = mpOfDay k - 9 ∧
      yearOfDay k = yoeOfDay k + eraOfDay k * 400 + 1) := by
  unfold monthOfDay yearOfDay
  by_cases hb : mpOfDay k < 10
  · left; simp [hb]
  · right; simp [hb]; omega

/-- The inverse conversion produces a valid civil date. -/
theorem civilFromDays_valid (k : Int) :
    ValidCivil (yearOfDay k) (monthOfDay k) (dayOfDay k) := by
  have hc := cent_facts k
  have hq := quad_facts k
  have hyq := yoq_facts k
  have hmp := mp_facts k
  have hmc := monthOfDay_cases k
  unfold doyStart at hmp
  have hm1 : 1 ≤ monthOfDay k ∧ monthOfDay k ≤ 12 := by
    rcases hmc with ⟨h, hm, _⟩ | ⟨h, hm, _⟩ <;> omega
  refine ⟨hm1.1, hm1.2, ?_, ?_⟩
  · unfold dayOfDay doyStart
    omega
  · rw [daysInMonth_eq _ _ hm1.1 hm1.2]
    -- leap-day analysis: a February 29 forces a leap year
    have hleap : monthOfDay k = 2 ∧ dayOfDay k = 29 →
        isLeapYear (yearOfDay k) = true := by
      rintro ⟨hm2, h29⟩
      have h11 : mpOfDay k = 11 := by
        rcases hmc with ⟨h, hm, _⟩ | ⟨h, hm, _⟩ <;> omega
      have hdoy365 : doyOfDay k = 365 := (hmp.2.2.2.2.2) ⟨h11, h29⟩
      have hyq3 : yoqOfDay k = 3 ∧ doqOfDay k = 1460 := hyq.2.2.2.2 hdoy365
      have hy : yearOfDay k = yoeOfDay k + eraOfDay k * 400 + 1 := by
        rcases hmc with ⟨h, _, _⟩ | ⟨_, _, hy⟩
        · omega
        · exact hy
      have hyoe : yoeOfDay k = 100 * centOfDay k + 4 * quadOfDay k + yoqOfDay k := rfl
      rw [isLeapYear_iff, hy, hyoe]
      by_cases h24 : quadOfDay k = 24
      · have hc3 : centOfDay k = 3 := by
          rcases hq with ⟨_, _, _, _, _, hlast⟩
          by_contra hne
          have := hlast ⟨by omega, h24⟩
          omega
        rw [hc3, h24, hyq3.1]
        omega
      · refine ⟨by omega, Or.inl ?_⟩
        rw [hyq3.1]
        omega
    split_ifs with hfeb hl h30
    · -- February, leap year: day is at most 29
      have h11 : mpOfDay k = 11 := by
        rcases hmc with ⟨h, hm, _⟩ | ⟨h, hm, _⟩ <;> omega
      exact hmp.2.2.2.2.1 h11
    · -- February, non-leap year: day must be at most 28
      by_contra hgt
      have h11 : mpOfDay k = 11 := by
        rcases hmc with ⟨h, hm, _⟩ | ⟨h, hm, _⟩ <;> omega
      have h29 : dayOfDay k = 29 := by
        have := hmp.2.2.2.2.1 h11
        omega
      exact hl (hleap ⟨hfeb, h29⟩)
    · -- 30-day months: April, June, September, November
      unfold dayOfDay doyStart
      rcases hmc with ⟨h, hm, _⟩ | ⟨h, hm, _⟩ <;> omega
    · -- 31-day months
      unfold dayOfDay doyStart
      rcases hmc with ⟨h, hm, _⟩ | ⟨h, hm, _⟩ <;> omega

/-- Recovering the shifted month from a day of shifted year. -/
theorem mp_of_doy_eq (mp doy : Int) (h0 : 0 ≤ mp) (h1 : mp ≤ 11)
    (h2 : (153 * mp + 2) / 5 ≤ doy)
    (h3 : mp ≤ 10 → doy < (153 * (mp + 1) + 2) / 5)
    (h4 : mp = 11 → doy ≤ 365) :
    (5 * doy + 2) / 153 = mp := by
  interval_cases mp <;> omega

/-- The map `civilFromDays` really inverts `daysFromCivil` on valid civil dates. -/
theorem civilFromDays_daysFromCivil (y m d : Int) (hv : ValidCivil y m d) :
    civilFromDays (daysFromCivil y m d) = ⟨y, m, d⟩ := by
  obtain ⟨hm1, hm2, hd1, hd2⟩ := hv
  rw [daysInMonth_eq _ _ hm1 hm2] at hd2
  -- month mapping facts
  have hmpb : 0 ≤ (m + 9) % 12 ∧ (m + 9) % 12 ≤ 11 ∧
      ((m + 9) % 12 < 10 → m = (m + 9) % 12 + 3) ∧
      (10 ≤ (m + 9) % 12 → m = (m + 9) % 12 - 9) ∧
      (m ≤ 2 ↔ 10 ≤ (m + 9) % 12) := by omega
  -- year-of-era facts
  have hyadj : yAdjOf y m = eraOfCivil y m * 400 + yoeOfCivil y m := by
    unfold yoeOfCivil; ring
  have hyoeb : 0 ≤ yoeOfCivil y m ∧ yoeOfCivil y m ≤ 399 := by
    unfold yoeOfCivil eraOfCivil; omega
  obtain ⟨c, q, yq, hceq, hc0, hc3, hq0, hq24, hyq0, hyq3, hsum⟩ :
      ∃ c q yq, yoeOfCivil y m = 100 * c + 4 * q + yq ∧ 0 ≤ c ∧ c ≤ 3 ∧
        0 ≤ q ∧ q ≤ 24 ∧ 0 ≤ yq ∧ yq ≤ 3 ∧ 4 * q + yq ≤ 99 := by
    refine ⟨yoeOfCivil y m / 100, yoeOfCivil y m % 100 / 4,
      yoeOfCivil y m % 100 % 4, ?_⟩
    omega
  have hglue : yoeOfCivil y m * 365 + yoeOfCivil y m / 4 - yoeOfCivil y m / 100 =
      36524 * c + 1461 * q + 365 * yq := by omega
  -- day-of-shifted-year facts
  have hdoy : 0 ≤ doyOfCivil m d ∧
      ((m + 9) % 12 ≤ 10 → doyOfCivil m d < (153 * ((m + 9) % 12 + 1) + 2) / 5) ∧
      ((m + 9) % 12 = 11 → doyOfCivil m d ≤ 365) ∧
      doyOfCivil m d = (153 * ((m + 9) % 12) + 2) / 5 + d - 1 := by
    unfold doyOfCivil doyStart mpOfMonth
    interval_cases m <;> [skip; (split_ifs at hd2); skip; skip; skip; skip;
      skip; skip; skip; skip; skip; skip] <;> omega
  have hdoy365 : doyOfCivil m d = 365 → (m + 9) % 12 = 11 ∧ d = 29 ∧ m = 2 := by
    intro h365
    have h11 : (m + 9) % 12 = 11 := by
      by_contra hne
      have h10 : (m + 9) % 12 ≤ 10 := by omega
      have := hdoy.2.1 h10
      omega
    refine ⟨h11, by omega, by omega⟩
  have hyeq : m ≤ 2 → y = eraOfCivil y m * 400 + 100 * c + 4 * q + yq + 1 := by
    intro hm2'
    have : yAdjOf y m = y - 1 := by unfold yAdjOf; rw [if_pos hm2']
    omega
  have hleapy : doyOfCivil m d = 365 → yq = 3 ∧ (q = 24 → c = 3) := by
    intro h365
    obtain ⟨h11, h29, hm2'⟩ := hdoy365 h365
    have hleap : isLeapYear y = true := by
      by_contra hnl
      rw [if_pos hm2', if_neg hnl] at hd2
      omega
    rw [isLeapYear_iff] at hleap
    have hy := hyeq (by omega)
    constructor
    · omega
    · intro hq24'
      rcases hleap with ⟨h4, h100 | h400⟩
      · exfalso; omega
      · omega
  -- the day of era and its decomposition
  have hdoe : doeOfCivil y m d = 36524 * c + 1461 * q + 365 * yq + doyOfCivil m d := by
    unfold doeOfCivil
    omega
  have hdoeb : 0 ≤ doeOfCivil y m d ∧ doeOfCivil y m d ≤ 146096 := by
    rcases hmpb with ⟨ha, hb, hcc, hdd, he⟩
    by_cases h11 : (m + 9) % 12 = 11
    · have := hdoy.2.1
      have := hdoy.2.2.1 h11
      omega
    · have := hdoy.2.1 (by omega)
      have hub : (153 * ((m + 9) % 12 + 1) + 2) / 5 ≤ 337 := by omega
      omega
  -- now walk the inverse pipeline on k := daysFromCivil y m d
  have hk : daysFromCivil y m d = eraOfCivil y m * 146097 + doeOfCivil y m d - 719468 := rfl
  have hera2 : eraOfDay (daysFromCivil y m d) = eraOfCivil y m := by
    unfold eraOfDay zOfDay
    omega
  have hdoe2 : doeOfDay (daysFromCivil y m d) = doeOfCivil y m d := by
    unfold doeOfDay zOfDay
    omega
  have hcent2 : centOfDay (daysFromCivil y m d) = c := by
    unfold centOfDay
    rw [hdoe2]
    have hcap : c ≤ 2 → doeOfCivil y m d - 36524 * c ≤ 36523 := by
      intro hc2
      by_contra hgt
      have h365 : doyOfCivil m d = 365 ∧ q = 24 ∧ yq = 3 := by
        by_cases h11 : (m + 9) % 12 = 11
        · have := hdoy.2.2.1 h11
          omega
        · have := hdoy.2.1 (by omega)
          have hub : (153 * ((m + 9) % 12 + 1) + 2) / 5 ≤ 337 := by omega
          omega
      have := (hleapy h365.1).2 h365.2.1
      omega
    omega
  have hdoc2 : docOfDay (daysFromCivil y m d) =
      1461 * q + 365 * yq + doyOfCivil m d := by
    unfold docOfDay
    rw [hdoe2, hcent2]
    omega
  have hquad2 : quadOfDay (daysFromCivil y m d) = q := by
    unfold quadOfDay
    rw [hdoc2]
    have hdoyub : doyOfCivil m d ≤ 365 := by
      by_cases h11 : (m + 9) % 12 = 11
      · exact hdoy.2.2.1 h11
      · have := hdoy.2.1 (by omega)
        have hub : (153 * ((m + 9) % 12 + 1) + 2) / 5 ≤ 337 := by omega
        omega
    omega
  have hdoq2 : doqOfDay (daysFromCivil y m d) = 365 * yq + doyOfCivil m d := by
    unfold doqOfDay
    rw [hdoc2, hquad2]
    ring
  have hdoyub : doyOfCivil m d ≤ 365 := by
    by_cases h11 : (m + 9) % 12 = 11
    · exact hdoy.2.2.1 h11
    · have := hdoy.2.1 (by omega)
      have hub : (153 * ((m + 9) % 12 + 1) + 2) / 5 ≤ 337 := by omega
      omega
  have hyoq2 : yoqOfDay (daysFromCivil y m d) = yq := by
    unfold yoqOfDay
    rw [hdoq2]
    by_cases h365 : doyOfCivil m d = 365
    · have := (hleapy h365).1
      omega
    · omega
  have hdoy2 : doyOfDay (daysFromCivil y m d) = doyOfCivil m d := by
    unfold doyOfDay
    rw [hdoq2, hyoq2]
    ring
  have hmp2 : mpOfDay (daysFromCivil y m d) = (m + 9) % 12 := by
    unfold mpOfDay
    rw [hdoy2]
    exact mp_of_doy_eq _ _ hmpb.1 hmpb.2.1 (by omega) hdoy.2.1 hdoy.2.2.1
  have hyoe2 : yoeOfDay (daysFromCivil y m d) = yoeOfCivil y m := by
    unfold yoeOfDay
    rw [hcent2, hquad2, hyoq2]
    omega
  -- conclude component by component
  unfold civilFromDays yearOfDay monthOfDay dayOfDay doyStart
  rw [hmp2, hyoe2, hera2, hdoy2]
  rcases hmpb with ⟨ha, hb, hcc, hdd, he⟩
  by_cases hlt : (m + 9) % 12 < 10
  · rw [if_pos hlt, if_pos hlt]
    have hm3 : ¬ m ≤ 2 := by omega
    have : yAdjOf y m = y := by unfold yAdjOf; rw [if_neg hm3]
    simp only [Civil.mk.injEq]
    refine ⟨by omega, by omega, by omega⟩
  · rw [if_neg hlt, if_neg hlt]
    have hm2' : m ≤ 2 := by omega
    have : yAdjOf y m = y - 1 := by unfold yAdjOf; rw [if_pos hm2']
    simp only [Civil.mk.injEq]
    refine ⟨by omega, by omega, by omega⟩

theorem daysFromCivilN_eq (y m d : Int) (h1 : 1 ≤ m) (h2 : m ≤ 12) :
    daysFromCivilN y m d = daysFromCivil y m d := by
  have ha : y + (m - 1) / 12 = y := by omega
  have hb : (m - 1) % 12 + 1 = m := by omega
  unfold daysFromCivilN
  rw [ha, hb]

theorem daysFromCivil_day_add (y m d n : Int) :
    daysFromCivil y m (d + n) = daysFromCivil y m d + n := by
  unfold daysFromCivil doeOfCivil doyOfCivil
  ring

theorem daysFromCivilN_day_add (y m d n : Int) :
    daysFromCivilN y m (d + n) = daysFromCivilN y m d + n := by
  unfold daysFromCivilN
  exact daysFromCivil_day_add _ _ _ _

theorem tsToWall_year (ts off : Int) :
    (tsToWall ts off).year = yearOfDay ((ts + off * 60000) / 86400000) := rfl

theorem tsToWall_month (ts off : Int) :
    (tsToWall ts off).month = monthOfDay ((ts + off * 60000) / 86400000) := rfl

theorem tsToWall_day (ts off : Int) :
    (tsToWall ts off).day = dayOfDay ((ts + off * 60000) / 86400000) := rfl

theorem tsToWall_hour (ts off : Int) :
    (tsToWall ts off).hour = (ts + off * 60000) % 86400000 / 3600000 := rfl

theorem tsToWall_minute (ts off : Int) :
    (tsToWall ts off).minute = (ts + off * 60000) % 86400000 / 60000 % 60 := rfl

theorem tsToWall_second (ts off : Int) :
    (tsToWall ts off).second = (ts + off * 60000) % 86400000 / 1000 % 60 := rfl

theorem tsToWall_millisecond (ts off : Int) :
    (tsToWall ts off).millisecond = (ts + off * 60000) % 86400000 % 1000 := rfl

/-- Wall-clock decomposition then recombination is the identity on
timestamps. -/
theorem wallToTs_tsToWall (ts off : Int) : wallToTs (tsToWall ts off) off = ts := by
  have hval := civilFromDays_valid ((ts + off * 60000) / 86400000)
  have hround := daysFromCivil_civilFromDays ((ts + off * 60000) / 86400000)
  obtain ⟨hm1, hm2, _, _⟩ := hval
  unfold wallToTs
  rw [tsToWall_year, tsToWall_month, tsToWall_day, tsToWall_hour, tsToWall_minute,
    tsToWall_second, tsToWall_millisecond]
  rw [daysFromCivilN_eq _ _ _ hm1 hm2, hround]
  omega

/-- Recombination then decomposition is the identity on valid wall-clock
fields. -/
theorem tsToWall_wallToTs (c : DateFields) (off : Int) (hv : ValidFields c) :
    tsToWall (wallToTs c off) off = c := by
  obtain ⟨cy, cm, cd, ch, cmi, cs, cms⟩ := c
  obtain ⟨hvc, hh0, hh1, hmi0, hmi1, hs0, hs1, hms0, hms1⟩ :
      ValidCivil cy cm cd ∧ 0 ≤ ch ∧ ch ≤ 23 ∧ 0 ≤ cmi ∧ cmi ≤ 59 ∧
        0 ≤ cs ∧ cs ≤ 59 ∧ 0 ≤ cms ∧ cms ≤ 999 := hv
  have hN : daysFromCivilN cy cm cd = daysFromCivil cy cm cd :=
    daysFromCivilN_eq _ _ _ hvc.1 hvc.2.1
  have hw : wallToTs ⟨cy, cm, cd, ch, cmi, cs, cms⟩ off =
      daysFromCivil cy cm cd * 86400000
        + ch * 3600000 + cmi * 60000 + cs * 1000 + cms - off * 60000 := by
    show daysFromCivilN cy cm cd * 86400000
        + ch * 3600000 + cmi * 60000 + cs * 1000 + cms - off * 60000 = _
    rw [hN]
  have hday : (wallToTs ⟨cy, cm, cd, ch, cmi, cs, cms⟩ off + off * 60000) / 86400000 =
      daysFromCivil cy cm cd := by
    rw [hw]; omega
  have hmsod : (wallToTs ⟨cy, cm, cd, ch, cmi, cs, cms⟩ off + off * 60000) % 86400000 =
      ch * 3600000 + cmi * 60000 + cs * 1000 + cms := by
    rw [hw]; omega
  have hciv := civilFromDays_daysFromCivil cy cm cd hvc
  have hy : yearOfDay (daysFromCivil cy cm cd) = cy := congrArg Civil.year hciv
  have hm : monthOfDay (daysFromCivil cy cm cd) = cm := congrArg Civil.month hciv
  have hd : dayOfDay (daysFromCivil cy cm cd) = cd := congrArg Civil.day hciv
  unfold tsToWall
  rw [hday, hmsod, hy, hm, hd]
  simp only [DateFields.mk.injEq, true_and]
  clear hw hday hmsod hN hciv hy hm hd hvc
  omega

/-- Unfolding `wallToTs` on explicit components. -/
theorem wallToTs_mk (y m d hh mi s ms off : Int) :
    wallToTs ⟨y, m, d, hh, mi, s, ms⟩ off =
      daysFromCivilN y m d * 86400000 + hh * 3600000 + mi * 60000 + s * 1000 + ms
        - off * 60000 := rfl

/-- Wall-clock fields produced by `tsToWall` are always valid. -/
theorem tsToWall_valid (ts off : Int) : ValidFields (tsToWall ts off) := by
  refine ⟨?_, ?_, ?_, ?_, ?_, ?_, ?_, ?_, ?_⟩
  · rw [tsToWall_year, tsToWall_month, tsToWall_day]
    exact civilFromDays_valid _
  · rw [tsToWall_hour]; omega
  · rw [tsToWall_hour]; omega
  · rw [tsToWall_minute]; omega
  · rw [tsToWall_minute]; omega
  · rw [tsToWall_second]; omega
  · rw [tsToWall_second]; omega
  · rw [tsToWall_millisecond]; omega
  · rw [tsToWall_millisecond]; omega

theorem adjustTime_shift_eq (ts off wks dys ms : Int) :
    adjustTime ⟨ts, off⟩ 0 0 wks dys ms =
      ⟨ts + (dys + 7 * wks) * 86400000 + ms, off⟩ := by
  have hv := tsToWall_valid ts off
  obtain ⟨hvc, -, -, -, -, -, -, -, -⟩ := hv
  unfold adjustTime
  simp only [add_zero]
  rw [min_eq_left hvc.2.2.2]
  rw [show (tsToWall ts off).day + dys + 7 * wks
      = (tsToWall ts off).day + (dys + 7 * wks) from by ring]
  rw [wallToTs_mk, daysFromCivilN_day_add]
  have hL1 : daysFromCivilN (tsToWall ts off).year (tsToWall ts off).month
        (tsToWall ts off).day * 86400000
      + (tsToWall ts off).hour * 3600000 + (tsToWall ts off).minute * 60000
      + (tsToWall ts off).second * 1000 + (tsToWall ts off).millisecond
      - off * 60000 = ts := wallToTs_tsToWall ts off
  simp only [LuxonDateTime.mk.injEq, and_true]
  omega

theorem wallToTs_self (ts off : Int) :
    daysFromCivilN (tsToWall ts off).year (tsToWall ts off).month
        (tsToWall ts off).day * 86400000
      + (tsToWall ts off).hour * 3600000 + (tsToWall ts off).minute * 60000
      + (tsToWall ts off).second * 1000 + (tsToWall ts off).millisecond
      - off * 60000 = ts := wallToTs_tsToWall ts off

/-- On fixed-length units, the Luxon `addDuration` shifts the instant by the
unit's exact millisecond length (in a fixed-offset zone). -/
theorem addDuration_fixed_ts (dt : LuxonDateTime) (n : Int) (u : TimeUnit)
    (hu : u.isFixed) :
    addDuration dt n u = ⟨dt.ts + n * unitMs u, dt.offset⟩ := by
  obtain ⟨ts, off⟩ := dt
  cases u with
  | seconds => rw [show addDuration ⟨ts, off⟩ n .seconds
        = adjustTime ⟨ts, off⟩ 0 0 0 0 (n * 1000) from rfl, adjustTime_shift_eq]
               simp [unitMs]
  | minutes => rw [show addDuration ⟨ts, off⟩ n .minutes
        = adjustTime ⟨ts, off⟩ 0 0 0 0 (n * 60000) from rfl, adjustTime_shift_eq]
               simp [unitMs]
  | hours => rw [show addDuration ⟨ts, off⟩ n .hours
        = adjustTime ⟨ts, off⟩ 0 0 0 0 (n * 3600000) from rfl, adjustTime_shift_eq]
             simp [unitMs]
  | days => rw [show addDuration ⟨ts, off⟩ n .days
        = adjustTime ⟨ts, off⟩ 0 0 0 n 0 from rfl, adjustTime_shift_eq]
            simp only [LuxonDateTime.mk.injEq, and_true, unitMs]
            ring
  | weeks => rw [show addDuration ⟨ts, off⟩ n .weeks
        = adjustTime ⟨ts, off⟩ 0 0 n 0 0 from rfl, adjustTime_shift_eq]
             simp only [LuxonDateTime.mk.injEq, and_true, unitMs]
             ring
  | months => exact absurd hu (by simp [TimeUnit.isFixed])
  | years => exact absurd hu (by simp [TimeUnit.isFixed])

/-- On fixed-length units, the Date-based `calculate_date` switch shifts the
instant by the unit's exact millisecond length. -/
theorem jsDateAdd_fixed (sysOff ts n : Int) (u : TimeUnit) (hu : u.isFixed) :
    jsDateAdd sysOff ts n u = ts + n * unitMs u := by
  have hL1 := wallToTs_self ts sysOff
  cases u with
  | seconds =>
      show wallToTs ⟨_, _, _, _, _, (tsToWall ts sysOff).second + n, _⟩ sysOff = _
      rw [wallToTs_mk]
      simp only [unitMs]
      omega
  | minutes =>
      show wallToTs ⟨_, _, _, _, (tsToWall ts sysOff).minute + n, _, _⟩ sysOff = _
      rw [wallToTs_mk]
      simp only [unitMs]
      omega
  | hours =>
      show wallToTs ⟨_, _, _, (tsToWall ts sysOff).hour + n, _, _, _⟩ sysOff = _
      rw [wallToTs_mk]
      simp only [unitMs]
      omega
  | days =>
      show wallToTs ⟨_, _, (tsToWall ts sysOff).day + n, _, _, _, _⟩ sysOff = _
      rw [wallToTs_mk, daysFromCivilN_day_add]
      simp only [unitMs]
      omega
  | weeks =>
      show wallToTs ⟨_, _, (tsToWall ts sysOff).day + n * 7, _, _, _, _⟩ sysOff = _
      rw [wallToTs_mk, daysFromCivilN_day_add]
      simp only [unitMs]
      omega
  | months => exact absurd hu (by simp [TimeUnit.isFixed])
  | years => exact absurd hu (by simp [TimeUnit.isFixed])

/-- C7: adding `n` of a fixed-length unit and then `-n` of the same unit
returns the original instant, in both implementations. -/
theorem fixed_unit_invertibility (t : LuxonDateTime) (sysOff ts n : Int)
    (u : TimeUnit) (hu : u.isFixed) :
    addDuration (addDuration t n u) (-n) u = t ∧
    jsDateAdd sysOff (jsDateAdd sysOff ts n u) (-n) u = ts := by
  constructor
  · rw [addDuration_fixed_ts _ _ _ hu, addDuration_fixed_ts _ _ _ hu]
    obtain ⟨ts0, off0⟩ := t
    simp only [LuxonDateTime.mk.injEq, and_true]
    ring
  · rw [jsDateAdd_fixed _ _ _ _ hu, jsDateAdd_fixed _ _ _ _ hu]
    ring

theorem fixed_unit_invertibility_check :
    TimeUnit.isFixed .days ∧
    addDuration (addDuration ⟨1735689600000, 540⟩ 5 .days) (-5) .days
      = ⟨1735689600000, 540⟩ ∧
    jsDateAdd 0 (jsDateAdd 0 1735689600000 5 .days) (-5) .days = 1735689600000 := by
  have h := fixed_unit_invertibility ⟨1735689600000, 540⟩ 0 1735689600000 5 .days trivial
  exact ⟨trivial, h.1, h.2⟩

/-- Changing the offset under which the same clock fields are resolved shifts
the instant by the offset difference, in milliseconds. -/
theorem wallToTs_offset_shift (c : DateFields) (o1 o2 : Int) :
    wallToTs c o2 = wallToTs c o1 + (o1 - o2) * 60000 := by
  unfold wallToTs
  ring

/-- C3 (amended): for a literal with no zone suffix the parser resolves the
clock reading as wall time in the fallback zone, and for a `Z` or
extended-format offset the literal denotes its own absolute instant with the
fallback having no effect — but for a basic-format offset `±HHMM`/`±HH`,
which Luxon honours and the `hasTimezone` regex misses, the keep-local-time
reinterpretation shifts the denoted instant by the fallback offset. -/
theorem parse_semantics (lit : ISOLiteral) (sysOff : Int)
    (hval : ValidLiteral lit) :
    (lit.offset = .missing →
      ∀ fz : Int, (parseDateWithTimezone lit sysOff (some fz)).ts
        = wallToTs lit.fields fz) ∧
    (lit.offset = .utcZ →
      ∀ fb₁ fb₂ : Option Int,
        parseDateWithTimezone lit sysOff fb₁ = parseDateWithTimezone lit sysOff fb₂ ∧
        (parseDateWithTimezone lit sysOff fb₁).ts = wallToTs lit.fields 0) ∧
    (∀ o : Int, lit.offset = .extended o →
      ∀ fb₁ fb₂ : Option Int,
        parseDateWithTimezone lit sysOff fb₁ = parseDateWithTimezone lit sysOff fb₂ ∧
        (parseDateWithTimezone lit sysOff fb₁).ts = wallToTs lit.fields o) ∧
    (∀ o fz : Int, lit.offset = .basic o →
      (parseDateWithTimezone lit sysOff (some fz)).ts
        = wallToTs lit.fields o - fz * 60000) := by
  obtain ⟨ly, lm, ld, lh, lmi, ls, lms, loff⟩ := lit
  refine ⟨?_, ?_, ?_, ?_⟩
  · intro hnone fz
    cases loff with
    | missing =>
      show wallToTs (tsToWall
          (wallToTs (ISOLiteral.fields ⟨ly, lm, ld, lh, lmi, ls, lms, .missing⟩) 0) 0) fz
        = wallToTs (ISOLiteral.fields ⟨ly, lm, ld, lh, lmi, ls, lms, .missing⟩) fz
      rw [tsToWall_wallToTs _ 0 hval]
    | utcZ => exact OffsetSpec.noConfusion hnone
    | extended oe => exact OffsetSpec.noConfusion hnone
    | basic ob => exact OffsetSpec.noConfusion hnone
  · intro hz fb₁ fb₂
    cases loff with
    | utcZ => exact ⟨rfl, rfl⟩
    | missing => exact OffsetSpec.noConfusion hz
    | extended oe => exact OffsetSpec.noConfusion hz
    | basic ob => exact OffsetSpec.noConfusion hz
  · intro o ho fb₁ fb₂
    cases loff with
    | extended oe =>
      obtain rfl : oe = o := OffsetSpec.extended.inj ho
      exact ⟨rfl, rfl⟩
    | missing => exact OffsetSpec.noConfusion ho
    | utcZ => exact OffsetSpec.noConfusion ho
    | basic ob => exact OffsetSpec.noConfusion ho
  · intro o fz ho
    cases loff with
    | basic ob =>
      obtain rfl : ob = o := OffsetSpec.basic.inj ho
      show wallToTs (tsToWall
          (wallToTs (ISOLiteral.fields ⟨ly, lm, ld, lh, lmi, ls, lms, .basic ob⟩) ob) 0) fz
        = wallToTs (ISOLiteral.fields ⟨ly, lm, ld, lh, lmi, ls, lms, .basic ob⟩) ob
            - fz * 60000
      rw [wallToTs_offset_shift (tsToWall
          (wallToTs (ISOLiteral.fields ⟨ly, lm, ld, lh, lmi, ls, lms, .basic ob⟩) ob) 0) 0 fz,
        wallToTs_tsToWall]
      ring
    | missing => exact OffsetSpec.noConfusion ho
    | utcZ => exact OffsetSpec.noConfusion ho
    | extended oe => exact OffsetSpec.noConfusion ho

theorem parse_semantics_check :
    ValidLiteral ⟨2025, 7, 5, 10, 30, 0, 0, .missing⟩ ∧
    (parseDateWithTimezone ⟨2025, 7, 5, 10, 30, 0, 0, .missing⟩ 0 (some 540)).ts
      = wallToTs (ISOLiteral.fields ⟨2025, 7, 5, 10, 30, 0, 0, .missing⟩) 540 := by
  refine ⟨by decide, ?_⟩
  exact (parse_semantics ⟨2025, 7, 5, 10, 30, 0, 0, .missing⟩ 0 (by decide)).1 rfl 540

/-- C3 (counterexample): the literal 2025-01-01T12:00:00+0900 carries an
explicit offset in the ISO basic format, which Luxon's `fromISO` honours but
the `hasTimezone` regex misses; with the fallback zone resolved to +540
minutes — the very zone the literal names — the parser lands on
2024-12-31T18:00:00Z instead of the denoted 2025-01-01T03:00:00Z, and
changing the fallback changes the parsed instant. -/
theorem basic_offset_fallback_counterexample :
    (parseDateWithTimezone ⟨2025, 1, 1, 12, 0, 0, 0, .basic 540⟩ 0 (some 540)).ts
      = 1735668000000 ∧
    ISOLiteral.denoted ⟨2025, 1, 1, 12, 0, 0, 0, .basic 540⟩ 540 = 1735700400000 ∧
    (1735668000000 : Int) ≠ 1735700400000 ∧
    (parseDateWithTimezone ⟨2025, 1, 1, 12, 0, 0, 0, .basic 540⟩ 0 (some 540)).ts
      ≠ (parseDateWithTimezone ⟨2025, 1, 1, 12, 0, 0, 0, .basic 540⟩ 0 (some 0)).ts := by
  refine ⟨by decide, by decide, by decide, by decide⟩

/-- C8 (amended): for a literal whose zone suffix is `Z` or an
extended-format offset — the forms the `hasTimezone` regex recognizes —
parsing and re-serializing to ISO denotes the same instant,
millisecond-exact, for any fallback zone and any process zone; the round
trip is restricted to those suffix forms because a basic-format offset
literal is misrouted to the keep-local-time branch. -/
theorem parse_format_round_trip (lit : ISOLiteral) (sysOff : Int)
    (fb : Option Int) (o : Int) (ho : OffsetSpec.explicit lit.offset = some o)
    (htz : hasTimezone lit = true) :
    wallToTs (formatDateInfo (parseDateWithTimezone lit sysOff fb)).isoFields
        (formatDateInfo (parseDateWithTimezone lit sysOff fb)).isoOffset
      = lit.denoted o ∧
    (formatDateInfo (parseDateWithTimezone lit sysOff fb)).milliseconds
      = lit.denoted o := by
  obtain ⟨ly, lm, ld, lh, lmi, ls, lms, loff⟩ := lit
  cases loff with
  | missing => exact Bool.noConfusion htz
  | basic ob => exact Bool.noConfusion htz
  | utcZ =>
    obtain rfl : (0 : Int) = o := Option.some.inj ho
    constructor
    · show wallToTs
          (tsToWall (wallToTs (ISOLiteral.fields ⟨ly, lm, ld, lh, lmi, ls, lms, .utcZ⟩) 0)
            sysOff) sysOff = _
      rw [wallToTs_tsToWall]
      rfl
    · rfl
  | extended oe =>
    obtain rfl : oe = o := Option.some.inj ho
    constructor
    · show wallToTs
          (tsToWall
            (wallToTs (ISOLiteral.fields ⟨ly, lm, ld, lh, lmi, ls, lms, .extended oe⟩) oe)
            sysOff) sysOff = _
      rw [wallToTs_tsToWall]
      rfl
    · rfl

theorem parse_format_round_trip_check :
    OffsetSpec.explicit (⟨2025, 1, 31, 23, 59, 59, 123, .extended 540⟩ : ISOLiteral).offset
      = some 540 ∧
    hasTimezone ⟨2025, 1, 31, 23, 59, 59, 123, .extended 540⟩ = true ∧
    wallToTs (formatDateInfo (parseDateWithTimezone
          ⟨2025, 1, 31, 23, 59, 59, 123, .extended 540⟩ (-300) (some 60))).isoFields
        (formatDateInfo (parseDateWithTimezone
          ⟨2025, 1, 31, 23, 59, 59, 123, .extended 540⟩ (-300) (some 60))).isoOffset
      = ISOLiteral.denoted ⟨2025, 1, 31, 23, 59, 59, 123, .extended 540⟩ 540 := by
  refine ⟨rfl, rfl, ?_⟩
  exact (parse_format_round_trip ⟨2025, 1, 31, 23, 59, 59, 123, .extended 540⟩
    (-300) (some 60) 540 rfl rfl).1

/-- C8 (counterexample): parse-then-serialize is not lossless on a
basic-format offset literal: for 2025-01-01T12:00:00+0900 with fallback zone
+540, the re-serialized output denotes 2024-12-31T18:00:00Z, not the
literal's 2025-01-01T03:00:00Z. -/
theorem basic_offset_round_trip_counterexample :
    wallToTs (formatDateInfo (parseDateWithTimezone
          ⟨2025, 1, 1, 12, 0, 0, 0, .basic 540⟩ 0 (some 540))).isoFields
        (formatDateInfo (parseDateWithTimezone
          ⟨2025, 1, 1, 12, 0, 0, 0, .basic 540⟩ 0 (some 540))).isoOffset
      = 1735668000000 ∧
    (formatDateInfo (parseDateWithTimezone
          ⟨2025, 1, 1, 12, 0, 0, 0, .basic 540⟩ 0 (some 540))).milliseconds
      = 1735668000000 ∧
    ISOLiteral.denoted ⟨2025, 1, 1, 12, 0, 0, 0, .basic 540⟩ 540 = 1735700400000 ∧
    (1735668000000 : Int) ≠ 1735700400000 := by
  refine ⟨by decide, by decide, by decide, by decide⟩

/-- Integer amounts agree between the rational and the integer models of
`addDuration`. -/
theorem addDurationRat_int (dt : LuxonDateTime) (n : Int) (u : TimeUnit) :
    addDurationRat dt (n : ℚ) u = ((addDuration dt n u).ts : ℚ) := by
  have htr : ratTrunc (n : ℚ) = n := by
    unfold ratTrunc
    split_ifs <;> simp
  cases u
  case seconds =>
    rw [addDuration_fixed_ts dt n .seconds trivial]
    show (dt.ts : ℚ) + n * 1000 = ((dt.ts + n * 1000 : Int) : ℚ)
    push_cast
    ring
  case minutes =>
    rw [addDuration_fixed_ts dt n .minutes trivial]
    show (dt.ts : ℚ) + n * 60000 = ((dt.ts + n * 60000 : Int) : ℚ)
    push_cast
    ring
  case hours =>
    rw [addDuration_fixed_ts dt n .hours trivial]
    show (dt.ts : ℚ) + n * 3600000 = ((dt.ts + n * 3600000 : Int) : ℚ)
    push_cast
    ring
  case days =>
    show ((adjustTime dt 0 0 0 (ratTrunc (n : ℚ)) 0).ts : ℚ)
        + ((n : ℚ) - ratTrunc (n : ℚ)) * 86400000 = _
    rw [htr]
    simp [addDuration]
  case weeks =>
    show ((adjustTime dt 0 0 (ratTrunc (n : ℚ)) 0 0).ts : ℚ)
        + ((n : ℚ) - ratTrunc (n : ℚ)) * 604800000 = _
    rw [htr]
    simp [addDuration]
  case months =>
    show ((adjustTime dt 0 (ratTrunc (n : ℚ)) 0 0 0).ts : ℚ)
        + ((n : ℚ) - ratTrunc (n : ℚ)) * 2592000000 = _
    rw [htr]
    simp [addDuration]
  case years =>
    show ((adjustTime dt (ratTrunc (n : ℚ)) 0 0 0 0).ts : ℚ)
        + ((n : ℚ) - ratTrunc (n : ℚ)) * 31536000000 = _
    rw [htr]
    simp [addDuration]

/-- C9: `dayOfWeek` is the Luxon 1=Monday..7=Sunday weekday normalized to
0=Sunday..6=Saturday, `isWeekend` holds exactly on 0 and 6, and on
2025-07-12 (a Saturday) in UTC `dayOfWeek = 6` with `isWeekend = true`. -/
theorem weekday_normalization (dt : LuxonDateTime) :
    (getDateComponents dt).dayOfWeek = sundayIndexOf dt ∧
    0 ≤ (getDateComponents dt).dayOfWeek ∧ (getDateComponents dt).dayOfWeek ≤ 6 ∧
    ((getDateContext dt).isWeekend = true ↔
      ((getDateComponents dt).dayOfWeek = 0 ∨ (getDateComponents dt).dayOfWeek = 6)) := by
  unfold getDateComponents getDateContext sundayIndexOf luxonWeekday
  simp only [decide_eq_true_iff]
  split_ifs <;> omega

theorem weekday_normalization_check :
    ((getDateComponents ⟨1752278400000, 0⟩).dayOfWeek = sundayIndexOf ⟨1752278400000, 0⟩ ∧
      0 ≤ (getDateComponents ⟨1752278400000, 0⟩).dayOfWeek ∧
      (getDateComponents ⟨1752278400000, 0⟩).dayOfWeek ≤ 6 ∧
      ((getDateContext ⟨1752278400000, 0⟩).isWeekend = true ↔
        ((getDateComponents ⟨1752278400000, 0⟩).dayOfWeek = 0 ∨
          (getDateComponents ⟨1752278400000, 0⟩).dayOfWeek = 6))) ∧
    (getDateComponents ⟨1752278400000, 0⟩).dayOfWeek = 6 ∧
    (getDateContext ⟨1752278400000, 0⟩).isWeekend = true :=
  ⟨weekday_normalization ⟨1752278400000, 0⟩, by decide, by decide⟩

/-- C10: the Date-based `get_current_time` computes `components` and
`context` from the process-local zone only; a differing requested timezone
adds a `timezone.converted` block when recognized or a `timezone.error`
message when not, and never changes the component values. -/
theorem current_time_components_local (nowTs sysOff : Int) (sysName : String)
    (resolve : String → Option Int) (z : String) (hz : z ≠ sysName) :
    (js_get_current_time nowTs sysOff sysName resolve (some z)).components
      = jsComponents sysOff nowTs ∧
    (js_get_current_time nowTs sysOff sysName resolve (some z)).context
      = jsContext sysOff nowTs ∧
    (∀ o : Int, resolve z = some o →
      (js_get_current_time nowTs sysOff sysName resolve (some z)).tzConverted
          = some (jsToLocaleReparse sysOff o nowTs) ∧
        (js_get_current_time nowTs sysOff sysName resolve (some z)).tzError = none) ∧
    (resolve z = none →
      (js_get_current_time nowTs sysOff sysName resolve (some z)).tzConverted = none ∧
        (js_get_current_time nowTs sysOff sysName resolve (some z)).tzError
          = some ("無効なタイムゾーン: " ++ z)) ∧
    (js_get_current_time nowTs sysOff sysName resolve none).components
      = jsComponents sysOff nowTs ∧
    (js_get_current_time nowTs sysOff sysName resolve none).context
      = jsContext sysOff nowTs ∧
    (js_get_current_time nowTs sysOff sysName resolve none).tzConverted = none ∧
    (js_get_current_time nowTs sysOff sysName resolve none).tzError = none := by
  unfold js_get_current_time
  simp only [Option.getD_some, Option.getD_none, if_pos hz, if_neg (by simp : ¬ sysName ≠ sysName)]
  rcases hres : resolve z with - | o
  · simp
  · simp

theorem current_time_components_local_check :
    "Asia/Tokyo" ≠ "UTC" ∧
    (js_get_current_time 1752278400000 0 "UTC"
        (fun z => if z = "Asia/Tokyo" then some 540 else none)
        (some "Asia/Tokyo")).components = jsComponents 0 1752278400000 ∧
    (js_get_current_time 1752278400000 0 "UTC"
        (fun z => if z = "Asia/Tokyo" then some 540 else none)
        (some "Asia/Tokyo")).tzConverted = some (jsToLocaleReparse 0 540 1752278400000) := by
  have h := current_time_components_local 1752278400000 0 "UTC"
    (fun z => if z = "Asia/Tokyo" then some 540 else none) "Asia/Tokyo" (by decide)
  exact ⟨by decide, h.1, (h.2.2.1 540 (by decide)).1⟩

/-- C6 (amended): the Date-based `get_time_difference` magnitudes really are
independent floor divisions of the absolute elapsed milliseconds by each
unit's fixed length, all nonnegative, with the direction carried solely by
`is_past` (`now > target`). -/
theorem js_diff_independent_floors (nowTs targetTs : Int) :
    (jsGetTimeDifference nowTs targetTs).difference = jsDiff nowTs targetTs ∧
    (jsDiff nowTs targetTs).milliseconds = |nowTs - targetTs| ∧
    (jsDiff nowTs targetTs).seconds = |nowTs - targetTs| / 1000 ∧
    (jsDiff nowTs targetTs).minutes = |nowTs - targetTs| / 60000 ∧
    (jsDiff nowTs targetTs).hours = |nowTs - targetTs| / 3600000 ∧
    (jsDiff nowTs targetTs).days = |nowTs - targetTs| / 86400000 ∧
    (jsDiff nowTs targetTs).weeks = |nowTs - targetTs| / 604800000 ∧
    0 ≤ (jsDiff nowTs targetTs).milliseconds ∧
    0 ≤ (jsDiff nowTs targetTs).seconds ∧
    0 ≤ (jsDiff nowTs targetTs).minutes ∧
    0 ≤ (jsDiff nowTs targetTs).hours ∧
    0 ≤ (jsDiff nowTs targetTs).days ∧
    0 ≤ (jsDiff nowTs targetTs).weeks ∧
    ((jsGetTimeDifference nowTs targetTs).is_past = true ↔ targetTs < nowTs) := by
  have h0 : (0 : Int) ≤ |nowTs - targetTs| := abs_nonneg _
  refine ⟨rfl, rfl, rfl, rfl, rfl, rfl, rfl, h0, ?_, ?_, ?_, ?_, ?_, ?_⟩
  · exact Int.ediv_nonneg h0 (by norm_num)
  · exact Int.ediv_nonneg h0 (by norm_num)
  · exact Int.ediv_nonneg h0 (by norm_num)
  · exact Int.ediv_nonneg h0 (by norm_num)
  · exact Int.ediv_nonneg h0 (by norm_num)
  · show decide (0 < nowTs - targetTs) = true ↔ targetTs < nowTs
    simp only [decide_eq_true_iff]
    omega

/-- C6 (counterexample): the Luxon `calculateDifference` does not return
independent floor divisions of the elapsed span: across the 59-day span
2025-01-01T00:00:00Z → 2025-03-01T00:00:00Z it reports 5 184 000 seconds
(the casual 2-month conversion) while `floor(elapsedMs / 1000)` is
5 097 600, and its `milliseconds` field is the calendar remainder 0, not the
elapsed 5 097 600 000. -/
theorem luxon_diff_not_floor_counterexample :
    (calculateDifference ⟨1740787200000, 0⟩ ⟨1735689600000, 0⟩).seconds = 5184000 ∧
    |(1740787200000 : Int) - 1735689600000| / 1000 = 5097600 ∧
    (5184000 : Int) ≠ 5097600 ∧
    (calculateDifference ⟨1740787200000, 0⟩ ⟨1735689600000, 0⟩).milliseconds = 0 ∧
    |(1740787200000 : Int) - 1735689600000| = 5097600000 ∧
    (0 : Int) ≠ 5097600000 := by
  refine ⟨by decide, by decide, by decide, by decide, by decide, by decide⟩

/-- C1: the Date-based `get_time_difference` computes months by the fixed
divisor 30 days (and years by 365 days), not by calendar-field subtraction.
From 2025-01-01T00:00:00Z to 2025-03-01T00:00:00Z exactly two whole calendar
months elapse (adding 2 months to the reference lands exactly on the other
instant, as the Luxon `calculateDifference` reports), but the Date-based
implementation reports `floor(59 days / 30 days) = 1` month. -/
theorem fixed_divisor_months_divergence :
    (jsDiff 1740787200000 1735689600000).months
        = |(1740787200000 : Int) - 1735689600000| / 2592000000 ∧
    (jsDiff 1740787200000 1735689600000).years
        = |(1740787200000 : Int) - 1735689600000| / 31536000000 ∧
    (jsDiff 1740787200000 1735689600000).months = 1 ∧
    addDuration ⟨1735689600000, 0⟩ 2 .months = ⟨1740787200000, 0⟩ ∧
    (calculateDifference ⟨1740787200000, 0⟩ ⟨1735689600000, 0⟩).months = 2 ∧
    (1 : Int) ≠ 2 := by
  refine ⟨rfl, rfl, by decide, by decide, by decide, by decide⟩

/-- C2 (counterexample): the Date-based `calculate_date` does not clamp:
`setMonth` rolls 2024-01-31 + 1 month over to 2024-03-02T00:00:00Z instead of
2024-02-29T00:00:00Z. -/
theorem js_month_add_no_clamp_counterexample :
    jsDateAdd 0 1706659200000 1 .months = 1709337600000 ∧
    (1709337600000 : Int) ≠ 1709164800000 := by
  refine ⟨by decide, by decide⟩

/-- C2 (amended): the Luxon `addDuration` clamps the day to the target
month's last valid day — `add(2024-01-31T00:00:00Z, 1, months)` is
2024-02-29T00:00:00Z and `add(2024-01-31T00:00:00Z, 1, years)` is
2025-01-31T00:00:00Z — while the Date-based `calculate_date` rolls the excess
day over into the following month (2024-03-02T00:00:00Z). -/
theorem month_add_clamp :
    addDuration ⟨1706659200000, 0⟩ 1 .months = ⟨1709164800000, 0⟩ ∧
    addDuration ⟨1706659200000, 0⟩ 1 .years = ⟨1738281600000, 0⟩ ∧
    jsDateAdd 0 1706659200000 1 .months = 1709337600000 := by
  refine ⟨by decide, by decide, by decide⟩

theorem relCount_years_eval : relCount .years ⟨1735689600000, 0⟩ ⟨1736294400000, 0⟩
    = -(7 / 365 : ℚ) := by
  unfold relCount
  rw [if_pos (by decide : (1736294400000 : Int) > 1735689600000)]
  unfold calDiffSingle
  rw [if_neg (by decide), if_pos (by decide)]
  simp only [show (tsToWall 1736294400000 0).year = 2025 from by decide,
    show (tsToWall 1735689600000 0).year = 2025 from by decide, sub_self]
  simp only [show plusCalUnit (tsToWall 1735689600000 0) 0 RelUnit.years 0
      = 1735689600000 from by decide]
  simp only [show plusCalUnit (tsToWall 1735689600000 0) 0 RelUnit.years 1
      = 1767225600000 from by decide]
  norm_num

theorem relCount_months_eval : relCount .months ⟨1735689600000, 0⟩ ⟨1736294400000, 0⟩
    = -(7 / 31 : ℚ) := by
  unfold relCount
  rw [if_pos (by decide : (1736294400000 : Int) > 1735689600000)]
  unfold calDiffSingle
  rw [if_neg (by decide), if_pos (by decide)]
  simp only [show (tsToWall 1736294400000 0).year = 2025 from by decide,
    show (tsToWall 1735689600000 0).year = 2025 from by decide,
    show (tsToWall 1736294400000 0).month = 1 from by decide,
    show (tsToWall 1735689600000 0).month = 1 from by decide, sub_self]
  simp only [zero_mul, add_zero]
  simp only [show plusCalUnit (tsToWall 1735689600000 0) 0 RelUnit.months 0
      = 1735689600000 from by decide]
  simp only [show plusCalUnit (tsToWall 1735689600000 0) 0 RelUnit.months 1
      = 1738368000000 from by decide]
  norm_num

theorem relCount_days_eval : relCount .days ⟨1735689600000, 0⟩ ⟨1736294400000, 0⟩
    = -(7 : ℚ) := by
  unfold relCount
  rw [if_pos (by decide : (1736294400000 : Int) > 1735689600000)]
  unfold calDiffSingle
  rw [if_neg (by decide), if_neg (by decide)]
  simp only [show dayDiffFields (tsToWall 1735689600000 0) (tsToWall 1736294400000 0)
      = 7 from by decide]
  norm_num

theorem toRelativeEn_seven_days :
    toRelativeEn ⟨1735689600000, 0⟩ ⟨1736294400000, 0⟩ = "7 days ago" := by
  unfold toRelativeEn
  rw [relCount_years_eval, relCount_months_eval, relCount_days_eval]
  rw [if_neg (by rw [abs_neg, abs_of_nonneg (by norm_num : (0:ℚ) ≤ 7/365)]; norm_num)]
  rw [if_neg (by rw [abs_neg, abs_of_nonneg (by norm_num : (0:ℚ) ≤ 7/31)]; norm_num)]
  rw [if_pos (by rw [abs_neg, abs_of_nonneg (by norm_num : (0:ℚ) ≤ 7)]; norm_num)]
  have htr : ratTrunc (-(7 : ℚ)) = -7 := by
    unfold ratTrunc
    rw [if_neg (by norm_num)]
    rw [show (-(7 : ℚ)) = ((-7 : ℤ) : ℚ) from by norm_num, Int.ceil_intCast]
  rw [htr]
  decide

/-- C5 (counterexample): with the reference at 2025-01-01T00:00:00Z and "now"
fixed at 2025-01-08T00:00:00Z, the Date-based `get_time_difference` renders
"1週間前" ("1 week ago") — its formatter reaches weeks before days — not
"7 days ago". -/
theorem js_seven_days_human_readable_counterexample :
    (jsGetTimeDifference 1736294400000 1735689600000).human_readable = "1週間前" ∧
    "1週間前" ≠ "7 days ago" := by
  refine ⟨by decide, by decide⟩

/-- C5 (amended): at reference 2025-01-01T00:00:00Z with "now" fixed at
2025-01-08T00:00:00Z, both implementations report `difference.days = 7` and
`is_past = true`; the Luxon implementation's `human_readable` (Luxon's
`toRelative` under an English locale) is "7 days ago", while the Date-based
formatter returns "1週間前" ("1 week ago") because it checks weeks first. -/
theorem seven_days_scenario :
    (jsGetTimeDifference 1736294400000 1735689600000).difference.days = 7 ∧
    (jsGetTimeDifference 1736294400000 1735689600000).is_past = true ∧
    (jsGetTimeDifference 1736294400000 1735689600000).human_readable = "1週間前" ∧
    (luxonGetTimeDifference ⟨1736294400000, 0⟩ ⟨1735689600000, 0⟩).difference.days = 7 ∧
    (luxonGetTimeDifference ⟨1736294400000, 0⟩ ⟨1735689600000, 0⟩).is_past = true ∧
    (luxonGetTimeDifference ⟨1736294400000, 0⟩ ⟨1735689600000, 0⟩).human_readable
      = "7 days ago" := by
  refine ⟨by decide, by decide, by decide, by decide, by decide, ?_⟩
  show toRelativeEn ⟨1735689600000, 0⟩ ⟨1736294400000, 0⟩ = "7 days ago"
  exact toRelativeEn_seven_days

/-- C4 (counterexample): `amount = 3/2` is not an integer, yet the Luxon
`calculate_date` produces a result instant: 2025-01-01T00:00:00Z plus 1.5
days yields 2025-01-02T12:00:00Z (the integer day via calendar arithmetic,
the half day as 43 200 000 milliseconds).  No `InvalidAmount` failure
exists. -/
theorem calculate_date_accepts_fractional_amount :
    (∀ n : ℤ, ((n : ℚ)) ≠ 3 / 2) ∧
    calculate_date_luxon ⟨2025, 1, 1, 0, 0, 0, 0, .utcZ⟩ 0 0 (3 / 2) .days
      = Except.ok 1735819200000 := by
  constructor
  · intro n h
    have h2 : ((2 * n : ℤ) : ℚ) = ((3 : ℤ) : ℚ) := by push_cast [h]; ring
    have h3 : (2 * n : ℤ) = 3 := Int.cast_injective h2
    omega
  · unfold calculate_date_luxon
    rw [if_pos (by decide)]
    show Except.ok (addDurationRat
      ⟨wallToTs (ISOLiteral.fields ⟨2025, 1, 1, 0, 0, 0, 0, .utcZ⟩) 0, 0⟩
      (3 / 2) .days) = _
    rw [show wallToTs (ISOLiteral.fields ⟨2025, 1, 1, 0, 0, 0, 0, .utcZ⟩) 0
        = 1735689600000 from by decide]
    have hfl : (⌊(3 : ℚ) / 2⌋ : ℤ) = 1 := by
      rw [Int.floor_eq_iff]
      norm_num
    have htr : ratTrunc ((3 : ℚ) / 2) = 1 := by
      unfold ratTrunc
      rw [if_pos (by norm_num)]
      exact hfl
    show Except.ok (((adjustTime ⟨1735689600000, 0⟩ 0 0 0 (ratTrunc (3 / 2)) 0).ts : ℚ)
      + ((3 / 2 : ℚ) - ratTrunc (3 / 2)) * 86400000) = _
    rw [htr]
    rw [show (adjustTime ⟨1735689600000, 0⟩ 0 0 0 (1 : ℤ) 0).ts
        = 1735776000000 from by decide]
    norm_num

/-- C4 (amended): for every valid base literal, every rational amount
(integer or not) and every unit, `calculate_date` returns a result instant;
its only failure path is an invalid date literal, and no amount validation
exists. -/
theorem calculate_date_total_in_amount (lit : ISOLiteral) (sysOff fbOff : Int)
    (q : ℚ) (u : TimeUnit) (h : ValidLiteral lit) :
    ∃ r : ℚ, calculate_date_luxon lit sysOff fbOff q u = Except.ok r := by
  unfold calculate_date_luxon
  rw [if_pos h]
  exact ⟨_, rfl⟩

theorem calculate_date_total_in_amount_check :
    ValidLiteral ⟨2025, 1, 1, 0, 0, 0, 0, .utcZ⟩ ∧
    ∃ r : ℚ, calculate_date_luxon ⟨2025, 1, 1, 0, 0, 0, 0, .utcZ⟩ 0 0 (3 / 2) .minutes
      = Except.ok r :=
  ⟨by decide,
    calculate_date_total_in_amount ⟨2025, 1, 1, 0, 0, 0, 0, .utcZ⟩ 0 0 (3 / 2)
      .minutes (by decide)⟩
